import Mathlib

/-!
# Package `retry`: a shallow embedding of `entry.go`, `error_matcher.go`, `task.go`

The package runs a task up to `Times` times and classifies every error the task
returns with two lists of matchers.

Modelling conventions.

* A Go `error` interface value is `none` (the nil interface) or `some g`, where
  `g : GoError` is a dynamic value.  `GoError` lists the dynamic types that the
  package and its tests meet: the pointer made by `errors.New`, a
  `*mysql.MySQLError` (nil or not), the wrapper made by `fmt.Errorf` with `%w`,
  and a user error type whose dynamic type is not comparable.
* A call that can end in a run-time panic returns `Option`: `none` is the panic.
* A task is the sequence of values its successive `Exec` calls return.
-/

namespace Retry

/-! ## Errors -/

/-- The struct `mysql.MySQLError` of the driver: the two fields the package reads. -/
structure MySQLError where
  Number : Nat
  Message : String
deriving DecidableEq, Repr

/-- The non-nil dynamic values of the interface `error`.

* `errorString addr s`: the `*errors.errorString` returned by `errors.New(s)`, at address `addr`;
* `mysqlError addr v`: a non-nil `*mysql.MySQLError` at address `addr`, pointing to `v`;
* `mysqlNil`: the nil pointer of type `*mysql.MySQLError` stored in an interface;
* `wrapError addr msg err`: the `*fmt.wrapError` of `fmt.Errorf("...%w", err)`, whose `Unwrap` gives `err`;
* `sliceError items`: a value of a user type such as `type E []string` with an `Error` method
  and no other method; its dynamic type is not comparable. -/
inductive GoError where
  | errorString (addr : Nat) (s : String)
  | mysqlError (addr : Nat) (v : MySQLError)
  | mysqlNil
  | wrapError (addr : Nat) (msg : String) (err : GoError)
  | sliceError (items : List String)
deriving DecidableEq, Repr

/-- The Go interface type `error`; `none` is `nil`. -/
abbrev error := Option GoError

/-- Go `==` on two non-nil interface values: false when the dynamic types differ,
address comparison for pointers, and a run-time panic (`none`) when both operands
have the same dynamic type and that type is not comparable. -/
def dynEq : GoError → GoError → Option Bool
  | .errorString a _, .errorString b _ => some (a == b)
  | .mysqlError a _, .mysqlError b _ => some (a == b)
  | .mysqlNil, .mysqlNil => some true
  | .wrapError a _ _, .wrapError b _ _ => some (a == b)
  | .sliceError _, .sliceError _ => none
  | _, _ => some false

/-- Go `==` on two values of type `error`. -/
def errEq : error → error → Option Bool
  | none, none => some true
  | none, some _ => some false
  | some _, none => some false
  | some a, some b => dynEq a b

/-- The loop of `errors.As` for a target of type `**mysql.MySQLError`, on a non-nil error:
the first value of the `Unwrap` chain whose dynamic type is `*mysql.MySQLError` is stored
in the target.  `none`: no such value, `As` returns false.  `some none`: `As` returns true
and the target now holds the nil pointer.  `some (some v)`: true, the target points to `v`. -/
def asMySQL : GoError → Option (Option MySQLError)
  | .errorString _ _ => none
  | .mysqlError _ v => some (some v)
  | .mysqlNil => some none
  | .wrapError _ _ err => asMySQL err
  | .sliceError _ => none

/-- The call `errors.As(err, &githubError)`: false on a nil error. -/
def errorsAs : error → Option (Option MySQLError)
  | none => none
  | some g => asMySQL g

/-- Whether `needle` starts the list `hay`. -/
def startsWith : List Char → List Char → Bool
  | _, [] => true
  | [], _ :: _ => false
  | h :: hs, n :: ns => h == n && startsWith hs ns

/-- Whether `needle` occurs in `hay` as a contiguous block. -/
def containsAt : List Char → List Char → Bool
  | [], needle => startsWith [] needle
  | h :: hs, needle => startsWith (h :: hs) needle || containsAt hs needle

/-- The library function `strings.Contains(s, substr)`.  Strings are taken as sequences of
characters; on well-formed UTF-8 text a block of bytes occurs in `s` exactly when the
block of characters does. -/
def stringsContains (s substr : String) : Bool :=
  containsAt s.data substr.data

/-! ## Matchers (`error_matcher.go`) -/

/-- The interface `IErrorMatcher`: the method `MatchWith(err error) bool`.
`none` is a call that panics instead of returning. -/
structure IErrorMatcher where
  MatchWith : error → Option Bool

/-- The type `ErrorMatcherFunc` is a function from `error` to `bool`. -/
abbrev ErrorMatcherFunc := error → Option Bool

/-- The constructor `NewErrorMatcherFunc(f)` returns `f`; its method `MatchWith(err)` is `f(err)`. -/
def NewErrorMatcherFunc (f : error → Option Bool) : IErrorMatcher :=
  ⟨fun err => f err⟩

/-- The function `IsDuplicateEntryError(err, duplicateEntryName)`.
`errors.As(...) && githubError.Number == 1062`: the field read dereferences the
pointer that `errors.As` stored, which panics when that pointer is nil. -/
def IsDuplicateEntryError (err : error) (duplicateEntryName : String) : Option Bool :=
  match errorsAs err with
  | none => some false
  | some none => none
  | some (some githubError) =>
    if githubError.Number == 1062 then
      some (stringsContains githubError.Message duplicateEntryName)
    else
      some false

/-- The matcher `DuplicateEntryErrorMatcher(duplicateEntryName)`. -/
def DuplicateEntryErrorMatcher (duplicateEntryName : String) : IErrorMatcher :=
  NewErrorMatcherFunc (fun err => IsDuplicateEntryError err duplicateEntryName)

/-- The matcher `ErrorIs(targetError)`: `err == targetError`. -/
def ErrorIs (targetError : error) : IErrorMatcher :=
  NewErrorMatcherFunc (fun err => errEq err targetError)

/-! ## Tasks (`task.go`) -/

/-- The interface `ITask`.  `Exec k` is the value returned by call number `k`
(counted from 0) of the method `Exec` during one run; every call is taken to return. -/
structure ITask where
  Exec : Nat → error

/-- The constructor `NewTaskFunc(f)`. -/
def NewTaskFunc (f : Nat → error) : ITask := ⟨f⟩

/-! ## Entries (`entry.go`) -/

/-- The struct `Entry`.  `Times` is a Go `int`; the loop counter of `Run` stays below it,
so no arithmetic of `Run` can overflow. -/
structure Entry where
  AcceptableErrors : List IErrorMatcher
  NeedRetryErrors : List IErrorMatcher
  Task : ITask
  Times : Int

/-- The constructor `NewEntry(task, times)`: both matcher lists are left empty. -/
def NewEntry (task : ITask) (times : Int) : Entry :=
  { AcceptableErrors := [], NeedRetryErrors := [], Task := task, Times := times }

/-- The method `WithAcceptableErrors(matchers...)`: it assigns the field of the receiver
and returns the receiver; the value is the entry after the call. -/
def Entry.WithAcceptableErrors (m : Entry) (matchers : List IErrorMatcher) : Entry :=
  { m with AcceptableErrors := matchers }

/-- The method `WithRetryErrors(matchers...)`: it assigns the field of the receiver
and returns the receiver; the value is the entry after the call. -/
def Entry.WithRetryErrors (m : Entry) (matchers : List IErrorMatcher) : Entry :=
  { m with NeedRetryErrors := matchers }

/-- The struct `Result`. -/
structure Result where
  Success : Bool
  LastErr : error
deriving DecidableEq, Repr

/-- The method `LastErrMatchWith(matcher)`. -/
def Result.LastErrMatchWith (r : Result) (matcher : IErrorMatcher) : Option Bool :=
  matcher.MatchWith r.LastErr

/-- A `range` loop over a matcher list that stops at the first matcher returning true:
`some true` when one does, `some false` when the list is exhausted, `none` when a
matcher panics before that. -/
def scanMatchers : List IErrorMatcher → error → Option Bool
  | [], _ => some false
  | x :: xs, err =>
    match x.MatchWith err with
    | none => none
    | some true => some true
    | some false => scanMatchers xs err

/-- What a finished run leaves: the returned `Result` and the number of `Exec` calls made. -/
structure RunOutcome where
  result : Result
  calls : Nat
deriving DecidableEq, Repr

/-- The `for` loop of `Run`.  The first argument counts the iterations still allowed
(`Times - i`), `i` is the loop variable, which is also the number of `Exec` calls made
so far, and `err` is the local variable `err`. -/
def Entry.loop (m : Entry) : Nat → Nat → error → Option RunOutcome
  | 0, i, err => some ⟨⟨false, err⟩, i⟩
  | k + 1, i, _ =>
    match m.Task.Exec i with
    | some g =>
      match scanMatchers m.AcceptableErrors (some g) with
      | none => none
      | some true => some ⟨⟨true, some g⟩, i + 1⟩
      | some false =>
        match scanMatchers m.NeedRetryErrors (some g) with
        | none => none
        | some false => some ⟨⟨false, some g⟩, i + 1⟩
        | some true => m.loop k (i + 1) (some g)
    | none => some ⟨⟨true, none⟩, i + 1⟩

/-- The method `Run`: `err` starts as nil and `i` runs from 0 while `i < m.Times`. -/
def Entry.Run (m : Entry) : Option RunOutcome :=
  m.loop m.Times.toNat 0 none

/-! ## Vocabulary of the properties -/

/-- Every matcher of the list returns a boolean on `err`: none of them panics. -/
def AllReturn (ms : List IErrorMatcher) (err : error) : Prop :=
  ∀ x ∈ ms, x.MatchWith err ≠ none

/-- The value `err` is matched by at least one matcher of the list. -/
def MatchedBy (ms : List IErrorMatcher) (err : error) : Prop :=
  ∃ x ∈ ms, x.MatchWith err = some true

instance (ms : List IErrorMatcher) (err : error) : Decidable (AllReturn ms err) :=
  inferInstanceAs (Decidable (∀ x ∈ ms, x.MatchWith err ≠ none))

instance (ms : List IErrorMatcher) (err : error) : Decidable (MatchedBy ms err) :=
  inferInstanceAs (Decidable (∃ x ∈ ms, x.MatchWith err = some true))

/-- The outcome `o` of an `Exec` call is an error that the entry retries: it is not nil,
the matchers of both lists return a boolean on it, at least one retry matcher matches it
and no acceptable matcher does. -/
def Entry.Retries (m : Entry) (o : error) : Prop :=
  o ≠ none ∧ AllReturn m.AcceptableErrors o ∧ AllReturn m.NeedRetryErrors o ∧
    MatchedBy m.NeedRetryErrors o ∧ ¬ MatchedBy m.AcceptableErrors o

instance (m : Entry) (o : error) : Decidable (m.Retries o) :=
  inferInstanceAs (Decidable (_ ∧ _ ∧ _ ∧ _ ∧ _))

/-- The reading of "can be classified as a MySQL error" for a non-nil error `g`: walking
the `Unwrap` chain from `g`, the first value of dynamic type `*mysql.MySQLError` is a
non-nil pointer, and it points to `v`. -/
inductive ClassifiedAsMySQL : GoError → MySQLError → Prop
  | here (addr : Nat) (v : MySQLError) : ClassifiedAsMySQL (.mysqlError addr v) v
  | wrapped (addr : Nat) (msg : String) (err : GoError) (v : MySQLError) :
      ClassifiedAsMySQL err v → ClassifiedAsMySQL (.wrapError addr msg err) v

/-- The reading of "an error of another shape": no value of the `Unwrap` chain from `g`
has the dynamic type `*mysql.MySQLError`. -/
inductive OtherShape : GoError → Prop
  | errorString (addr : Nat) (s : String) : OtherShape (.errorString addr s)
  | sliceError (items : List String) : OtherShape (.sliceError items)
  | wrapped (addr : Nat) (msg : String) (err : GoError) :
      OtherShape err → OtherShape (.wrapError addr msg err)

/-- The string `sub` occurs in `s`: `s` is some text, then `sub`, then some text. -/
def IsSubstringOf (sub s : String) : Prop :=
  ∃ before after : List Char, s.data = before ++ sub.data ++ after

/-! ## The fixtures of `entry_test.go` -/

/-- The mock task of the tests: its successive `Exec` calls return the listed values,
and nil once the list is used up. -/
def mockTask (returns : List error) : ITask :=
  NewTaskFunc (fun k => returns.getD k none)

/-- The value `errors.New("error1")` of the test. -/
def error1 : error := some (.errorString 1 "error1")

/-- The value `errors.New("error2")` of the test. -/
def error2 : error := some (.errorString 2 "error2")

/-- The value `errors.New("error3")` of the test. -/
def error3 : error := some (.errorString 3 "error3")

/-- The entry of `TestEntry_Run`: three attempts, `error1` acceptable, `error2` retried. -/
def testEntry (returns : List error) : Entry :=
  ((NewEntry (mockTask returns) 3).WithAcceptableErrors [ErrorIs error1]).WithRetryErrors
    [ErrorIs error2]

/-- An entry whose acceptable list and retry list both match `error1`. -/
def overlapEntry (returns : List error) : Entry :=
  ((NewEntry (mockTask returns) 3).WithAcceptableErrors [ErrorIs error1]).WithRetryErrors
    [ErrorIs error1, ErrorIs error2]

/-- An entry as `NewEntry` leaves it but for one acceptable matcher: no retry matcher. -/
def noRetryEntry (returns : List error) : Entry :=
  (NewEntry (mockTask returns) 3).WithAcceptableErrors [ErrorIs error1]

/-! ## Vocabulary of the later properties -/

/-- The dynamic types of the values of `GoError`. -/
inductive DynType where
  | errorStringPtr
  | mysqlErrorPtr
  | wrapErrorPtr
  | sliceType
deriving DecidableEq, Repr

/-- The dynamic type of a non-nil error value. -/
def GoError.dynType : GoError → DynType
  | .errorString _ _ => .errorStringPtr
  | .mysqlError _ _ => .mysqlErrorPtr
  | .mysqlNil => .mysqlErrorPtr
  | .wrapError _ _ _ => .wrapErrorPtr
  | .sliceError _ => .sliceType

/-- Whether the dynamic type is a pointer type; Go compares two pointers by address. -/
def DynType.isPointer : DynType → Bool
  | .sliceType => false
  | _ => true

/-- The address a value of pointer type holds; `none` for the nil pointer and for a
value that is no pointer. -/
def GoError.addr : GoError → Option Nat
  | .errorString a _ => some a
  | .mysqlError a _ => some a
  | .mysqlNil => none
  | .wrapError a _ _ => some a
  | .sliceError _ => none

/-- Go error identity, `e == t`, as a relation: both are nil, or both hold pointers of
the same dynamic type to the same address (or both the nil `*mysql.MySQLError`). -/
inductive SameError : error → error → Prop
  | bothNil : SameError none none
  | errorString (a : Nat) (s s2 : String) :
      SameError (some (.errorString a s)) (some (.errorString a s2))
  | mysqlError (a : Nat) (v v2 : MySQLError) :
      SameError (some (.mysqlError a v)) (some (.mysqlError a v2))
  | mysqlNil : SameError (some .mysqlNil) (some .mysqlNil)
  | wrapError (a : Nat) (msg msg2 : String) (g g2 : GoError) :
      SameError (some (.wrapError a msg g)) (some (.wrapError a msg2 g2))

/-- On every non-nil outcome of the calls that `Times` allows, the matchers of both lists
return a boolean. -/
def Entry.MatchersReturn (m : Entry) : Prop :=
  ∀ i, i < m.Times.toNat → m.Task.Exec i ≠ none →
    AllReturn m.AcceptableErrors (m.Task.Exec i) ∧ AllReturn m.NeedRetryErrors (m.Task.Exec i)

instance (m : Entry) : Decidable m.MatchersReturn :=
  inferInstanceAs (Decidable (∀ i, i < m.Times.toNat → _ → _ ∧ _))

/-! ## The reference definition of `Run` -/

/-- The four classes of a task outcome. -/
inductive OutcomeClass where
  | CLEAN
  | ACCEPTED
  | RETRY
  | FATAL
deriving DecidableEq, Repr

/-- The class of an outcome: CLEAN if it is nil, ACCEPTED if it is an error matched by
some acceptable matcher, RETRY if it is an error matched by no acceptable matcher but by
some retry matcher, FATAL otherwise. -/
def Entry.classify (m : Entry) (o : error) : OutcomeClass :=
  match o with
  | none => .CLEAN
  | some g =>
    if MatchedBy m.AcceptableErrors (some g) then .ACCEPTED
    else if MatchedBy m.NeedRetryErrors (some g) then .RETRY
    else .FATAL

/-- The result and call count when call number `i + 1` (index `i`) is the first whose
outcome is not RETRY. -/
def Entry.terminalAt (m : Entry) (i : Nat) : RunOutcome :=
  match m.classify (m.Task.Exec i) with
  | .CLEAN => ⟨⟨true, none⟩, i + 1⟩
  | .ACCEPTED => ⟨⟨true, m.Task.Exec i⟩, i + 1⟩
  | _ => ⟨⟨false, m.Task.Exec i⟩, i + 1⟩

/-- The least index `j` in `1..Times` whose outcome is not RETRY, as `i = j - 1`. -/
def Entry.leastNonRetry (m : Entry) : Option Nat :=
  (List.range m.Times.toNat).find? (fun i => decide (m.classify (m.Task.Exec i) ≠ .RETRY))

/-- The reference definition of `Run`: with `j` the least index in `1..Times` whose
outcome is not RETRY, `j` calls and the result of that outcome; with no such `j`,
`max(Times, 0)` calls and `(false, last outcome)`, the outcome being nil when
`Times <= 0`. -/
def Entry.RunReference (m : Entry) : RunOutcome :=
  match m.leastNonRetry with
  | some i => m.terminalAt i
  | none =>
    ⟨⟨false, if m.Times ≤ 0 then none else m.Task.Exec (m.Times.toNat - 1)⟩, m.Times.toNat⟩

/-! ## The matcher scan -/

theorem scanMatchers_none_matched {ms : List IErrorMatcher} {err : error}
    (hret : AllReturn ms err) (hno : ¬ MatchedBy ms err) :
    scanMatchers ms err = some false := by
  induction ms with
  | nil => rfl
  | cons x xs ih =>
    have hx : x.MatchWith err = some false := by
      cases hv : x.MatchWith err with
      | none => exact absurd hv (hret x (List.mem_cons_self _ _))
      | some b =>
        cases b with
        | false => rfl
        | true => exact absurd ⟨x, List.mem_cons_self _ _, hv⟩ hno
    simp only [scanMatchers, hx]
    exact ih (fun y hy => hret y (List.mem_cons_of_mem _ hy))
      (fun ⟨y, hy, hv⟩ => hno ⟨y, List.mem_cons_of_mem _ hy, hv⟩)

theorem scanMatchers_some_matched {ms : List IErrorMatcher} {err : error}
    (hret : AllReturn ms err) (hyes : MatchedBy ms err) :
    scanMatchers ms err = some true := by
  induction ms with
  | nil =>
    obtain ⟨y, hy, _⟩ := hyes
    cases hy
  | cons x xs ih =>
    cases hv : x.MatchWith err with
    | none => exact absurd hv (hret x (List.mem_cons_self _ _))
    | some b =>
      cases b with
      | true => simp only [scanMatchers, hv]
      | false =>
        simp only [scanMatchers, hv]
        refine ih (fun y hy => hret y (List.mem_cons_of_mem _ hy)) ?_
        obtain ⟨y, hy, hy2⟩ := hyes
        rcases List.mem_cons.mp hy with rfl | hmem
        · rw [hv] at hy2
          cases hy2
        · exact ⟨y, hmem, hy2⟩

/-! ## The loop of `Run` -/

theorem Entry.loop_retry (m : Entry) (k i : Nat) (err : error)
    (h : m.Retries (m.Task.Exec i)) :
    m.loop (k + 1) i err = m.loop k (i + 1) (m.Task.Exec i) := by
  obtain ⟨hne, hra, hrr, hyes, hno⟩ := h
  cases ho : m.Task.Exec i with
  | none => exact absurd ho hne
  | some g =>
    rw [ho] at hra hrr hyes hno
    simp only [Entry.loop, ho, scanMatchers_none_matched hra hno,
      scanMatchers_some_matched hrr hyes]

/-- After `k` retried outcomes the loop stands at `i + k` with the last of them in `err`. -/
theorem Entry.loop_retries (m : Entry) (k : Nat) :
    ∀ (r i : Nat) (err : error), (∀ j, j < k → m.Retries (m.Task.Exec (i + j))) →
      m.loop (k + r) i err =
        m.loop r (i + k) (if k = 0 then err else m.Task.Exec (i + k - 1)) := by
  induction k with
  | zero => intro r i err _; simp
  | succ k ih =>
    intro r i err h
    have h0 : m.Retries (m.Task.Exec i) := by simpa using h 0 (Nat.succ_pos k)
    have e1 : k + 1 + r = (k + r) + 1 := by omega
    rw [e1, Entry.loop_retry m (k + r) i err h0,
      ih r (i + 1) (m.Task.Exec i) (fun j hj => by
        have := h (j + 1) (Nat.succ_lt_succ hj)
        rwa [show i + (j + 1) = i + 1 + j by omega] at this)]
    have e2 : i + 1 + k = i + (k + 1) := by omega
    rw [e2]
    by_cases hk : k = 0
    · subst hk; simp
    · simp only [hk, if_false, Nat.succ_ne_zero]

theorem Entry.loop_nil (m : Entry) (k i : Nat) (err : error) (h : m.Task.Exec i = none) :
    m.loop (k + 1) i err = some ⟨⟨true, none⟩, i + 1⟩ := by
  simp only [Entry.loop, h]

theorem Entry.loop_accept (m : Entry) (k i : Nat) (err : error) (g : GoError)
    (h : m.Task.Exec i = some g) (hret : AllReturn m.AcceptableErrors (some g))
    (hyes : MatchedBy m.AcceptableErrors (some g)) :
    m.loop (k + 1) i err = some ⟨⟨true, some g⟩, i + 1⟩ := by
  simp only [Entry.loop, h, scanMatchers_some_matched hret hyes]

theorem Entry.loop_fatal (m : Entry) (k i : Nat) (err : error) (g : GoError)
    (h : m.Task.Exec i = some g)
    (hra : AllReturn m.AcceptableErrors (some g)) (hna : ¬ MatchedBy m.AcceptableErrors (some g))
    (hrr : AllReturn m.NeedRetryErrors (some g)) (hnr : ¬ MatchedBy m.NeedRetryErrors (some g)) :
    m.loop (k + 1) i err = some ⟨⟨false, some g⟩, i + 1⟩ := by
  simp only [Entry.loop, h, scanMatchers_none_matched hra hna, scanMatchers_none_matched hrr hnr]

/-- With at least one attempt allowed, `Run` enters the loop body. -/
theorem Entry.run_pos (m : Entry) (h : 1 ≤ m.Times) :
    m.Run = m.loop ((m.Times.toNat - 1) + 1) 0 none := by
  have : m.Times.toNat = (m.Times.toNat - 1) + 1 := by omega
  unfold Entry.Run
  rw [← this]

/-- With more than `k` attempts allowed, `Run` can make `k` iterations and enter one more. -/
theorem Entry.run_split (m : Entry) (k : Nat) (h : (k : Int) < m.Times) :
    m.Run = m.loop (k + ((m.Times.toNat - k - 1) + 1)) 0 none := by
  have : m.Times.toNat = k + ((m.Times.toNat - k - 1) + 1) := by omega
  unfold Entry.Run
  rw [← this]

/-! ## The contract of `Run` -/

/-- C1: for an entry with `Times = n ≥ 1` and a task whose first `n` calls each return a
non-nil error matched by at least one retry matcher and by no acceptable matcher, `Run`
calls the task exactly `n` times and returns `Success = false` with `LastErr` the error
of call number `n`. -/
theorem run_exhausted (m : Entry) (n : Nat) (hn : 1 ≤ n) (hT : m.Times = (n : Int))
    (h : ∀ i, i < n → m.Retries (m.Task.Exec i)) :
    m.Run = some ⟨⟨false, m.Task.Exec (n - 1)⟩, n⟩ := by
  have hrun : m.Run = m.loop (n + 0) 0 none := by
    unfold Entry.Run
    rw [hT]
    rfl
  rw [hrun, Entry.loop_retries m n 0 0 none (fun j hj => by simpa using h j hj)]
  have hn0 : n ≠ 0 := by omega
  simp [Entry.loop, hn0]

/-- Case 5 of `TestEntry_Run`: `error2` three times. -/
theorem run_exhausted_witness :
    (testEntry [error2, error2, error2]).Run = some ⟨⟨false, error2⟩, 3⟩ :=
  run_exhausted (testEntry [error2, error2, error2]) 3 (by decide) rfl (by decide)

/-- C2: for an entry with `Times ≥ 1` and a task whose first call returns a non-nil error
`E` matched by at least one acceptable matcher, `Run` returns `Success = true` with
`LastErr = E` after exactly one call; nothing is asked of the retry matchers, so this
holds also when one of them matches `E`. -/
theorem run_accepted_first (m : Entry) (g : GoError) (hT : 1 ≤ m.Times)
    (h0 : m.Task.Exec 0 = some g) (hret : AllReturn m.AcceptableErrors (some g))
    (hacc : MatchedBy m.AcceptableErrors (some g)) :
    m.Run = some ⟨⟨true, some g⟩, 1⟩ := by
  rw [Entry.run_pos m hT]
  exact Entry.loop_accept m _ 0 none g h0 hret hacc

/-- An error matched by both lists is accepted at the first call. -/
theorem run_accepted_first_witness :
    MatchedBy (overlapEntry [error1]).NeedRetryErrors error1 ∧
      (overlapEntry [error1]).Run = some ⟨⟨true, error1⟩, 1⟩ :=
  ⟨by decide,
    run_accepted_first (overlapEntry [error1]) (.errorString 1 "error1") (by decide) rfl
      (by decide) (by decide)⟩

/-- C3: for an entry with `Times ≥ 1` and a task whose first call returns a non-nil error
`E` matched by no acceptable matcher and by no retry matcher, `Run` returns
`Success = false` with `LastErr = E` after exactly one call. -/
theorem run_fatal_first (m : Entry) (g : GoError) (hT : 1 ≤ m.Times)
    (h0 : m.Task.Exec 0 = some g)
    (hra : AllReturn m.AcceptableErrors (some g)) (hna : ¬ MatchedBy m.AcceptableErrors (some g))
    (hrr : AllReturn m.NeedRetryErrors (some g)) (hnr : ¬ MatchedBy m.NeedRetryErrors (some g)) :
    m.Run = some ⟨⟨false, some g⟩, 1⟩ := by
  rw [Entry.run_pos m hT]
  exact Entry.loop_fatal m _ 0 none g h0 hra hna hrr hnr

/-- Case 6 of `TestEntry_Run`: `error3` is in neither list. -/
theorem run_fatal_first_witness :
    (testEntry [error3]).Run = some ⟨⟨false, error3⟩, 1⟩ :=
  run_fatal_first (testEntry [error3]) (.errorString 3 "error3") (by decide) rfl
    (by decide) (by decide) (by decide) (by decide)

/-- C4: for an entry with `Times ≥ 1`, whatever its two matcher lists, a task whose first
call returns nil makes `Run` return `Success = true` with `LastErr = nil` after exactly
one call. -/
theorem run_clean_first (m : Entry) (hT : 1 ≤ m.Times) (h0 : m.Task.Exec 0 = none) :
    m.Run = some ⟨⟨true, none⟩, 1⟩ := by
  rw [Entry.run_pos m hT]
  exact Entry.loop_nil m _ 0 none h0

/-- Case 1 of `TestEntry_Run`: the task returns nil. -/
theorem run_clean_first_witness :
    (testEntry [none]).Run = some ⟨⟨true, none⟩, 1⟩ :=
  run_clean_first (testEntry [none]) (by decide) rfl

/-- A failed run that entered the loop with a non-nil `err`, or with at least one
iteration allowed, carries a non-nil `LastErr`. -/
theorem Entry.loop_failure_lastErr (m : Entry) (k : Nat) :
    ∀ (i : Nat) (err : error) (r : RunOutcome), m.loop k i err = some r →
      (err ≠ none ∨ 1 ≤ k) → r.result.Success = false → r.result.LastErr ≠ none := by
  induction k with
  | zero =>
    intro i err r hr hk _
    simp only [Entry.loop, Option.some.injEq] at hr
    subst hr
    rcases hk with h | h
    · exact h
    · omega
  | succ k ih =>
    intro i err r hr _ hs
    simp only [Entry.loop] at hr
    cases ho : m.Task.Exec i with
    | none =>
      simp only [ho, Option.some.injEq] at hr
      subst hr
      cases hs
    | some g =>
      simp only [ho] at hr
      cases ha : scanMatchers m.AcceptableErrors (some g) with
      | none => simp [ha] at hr
      | some a =>
        cases a with
        | true =>
          simp only [ha, Option.some.injEq] at hr
          subst hr
          cases hs
        | false =>
          simp only [ha] at hr
          cases hn : scanMatchers m.NeedRetryErrors (some g) with
          | none => simp [hn] at hr
          | some b =>
            cases b with
            | false =>
              simp only [hn, Option.some.injEq] at hr
              subst hr
              simp
            | true =>
              simp only [hn] at hr
              exact ih (i + 1) (some g) r hr (Or.inl (by simp)) hs

/-- With `Times ≥ 1` the documented invariant of `Result` holds: a returned `Result`
with `Success = false` has a non-nil `LastErr`. -/
theorem run_failure_lastErr_of_pos (m : Entry) (r : RunOutcome) (hT : 1 ≤ m.Times)
    (hr : m.Run = some r) (hs : r.result.Success = false) : r.result.LastErr ≠ none := by
  rw [Entry.run_pos m hT] at hr
  exact Entry.loop_failure_lastErr m _ 0 none r hr (Or.inr (by omega)) hs

/-- C5, at the failing input: the entry `NewEntry(task, 0)` returns `Success = false`
with a nil `LastErr`, against the invariant written on the type `Result`. -/
theorem run_zero_times_breaks_invariant :
    ∃ r, (NewEntry (mockTask [error2]) 0).Run = some r ∧
      r.result.Success = false ∧ r.result.LastErr = none :=
  ⟨⟨⟨false, none⟩, 0⟩, rfl, rfl, rfl⟩

/-- C6, refuted as stated: on a `Result` with a nil `LastErr` the matcher `ErrorIs(nil)`
makes `LastErrMatchWith` return true. -/
theorem lastErrMatchWith_errorIs_nil_true :
    (Result.mk true none).LastErrMatchWith (ErrorIs none) = some true ∧
      ¬ (∀ (m : IErrorMatcher) (r : Result), r.LastErr = none →
          r.LastErrMatchWith m = some false) :=
  ⟨rfl, fun h => by
    have := h (ErrorIs none) (Result.mk true none) rfl
    exact absurd this (by decide)⟩

/-- C6, amended: on a `Result` with a nil `LastErr`, `LastErrMatchWith(m)` returns what
`m.MatchWith(nil)` returns; that is false for every `DuplicateEntryErrorMatcher(s)` and
for every `ErrorIs(t)` with a non-nil `t`, and true for `ErrorIs(nil)`. -/
theorem lastErrMatchWith_nil (r : Result) (h : r.LastErr = none) :
    (∀ m : IErrorMatcher, r.LastErrMatchWith m = m.MatchWith none) ∧
      (∀ s : String, r.LastErrMatchWith (DuplicateEntryErrorMatcher s) = some false) ∧
      (∀ g : GoError, r.LastErrMatchWith (ErrorIs (some g)) = some false) ∧
      r.LastErrMatchWith (ErrorIs none) = some true := by
  obtain ⟨b, e⟩ := r
  have he : e = none := h
  subst he
  exact ⟨fun _ => rfl, fun _ => rfl, fun _ => rfl, rfl⟩

/-- The second row of `TestResult_LastErrMatchWith`: a nil `LastErr` and the
duplicate-entry matcher for `hello`. -/
theorem lastErrMatchWith_nil_witness :
    (Result.mk true none).LastErrMatchWith (DuplicateEntryErrorMatcher "hello") = some false :=
  ((lastErrMatchWith_nil (Result.mk true none) rfl).2.1) "hello"

/-! ## The duplicate-entry matcher -/

theorem startsWith_iff (hay needle : List Char) :
    startsWith hay needle = true ↔ ∃ after, hay = needle ++ after := by
  induction needle generalizing hay with
  | nil => cases hay <;> simp [startsWith]
  | cons n ns ih =>
    cases hay with
    | nil => simp [startsWith]
    | cons h hs =>
      simp only [startsWith, Bool.and_eq_true, beq_iff_eq, ih hs, List.cons_append,
        List.cons.injEq]
      constructor
      · rintro ⟨rfl, after, rfl⟩
        exact ⟨after, rfl, rfl⟩
      · rintro ⟨after, rfl, rfl⟩
        exact ⟨rfl, after, rfl⟩

theorem containsAt_iff (hay needle : List Char) :
    containsAt hay needle = true ↔ ∃ before after, hay = before ++ needle ++ after := by
  induction hay with
  | nil =>
    simp only [containsAt, startsWith_iff]
    constructor
    · rintro ⟨after, h⟩
      exact ⟨[], after, by simpa using h⟩
    · rintro ⟨before, after, h⟩
      have h1 := congrArg List.length h
      simp only [List.length_nil, List.length_append] at h1
      have hb : before = [] := List.length_eq_zero.mp (by omega)
      subst hb
      exact ⟨after, by simpa using h⟩
  | cons h hs ih =>
    simp only [containsAt, Bool.or_eq_true, startsWith_iff, ih]
    constructor
    · rintro (⟨after, e⟩ | ⟨before, after, e⟩)
      · exact ⟨[], after, by simpa using e⟩
      · exact ⟨h :: before, after, by simp [e]⟩
    · rintro ⟨before, after, e⟩
      cases before with
      | nil => exact Or.inl ⟨after, by simpa using e⟩
      | cons b bs =>
        simp only [List.cons_append, List.cons.injEq] at e
        exact Or.inr ⟨bs, after, e.2⟩

theorem stringsContains_iff (s sub : String) :
    stringsContains s sub = true ↔ IsSubstringOf sub s :=
  containsAt_iff s.data sub.data

theorem asMySQL_iff (g : GoError) (v : MySQLError) :
    asMySQL g = some (some v) ↔ ClassifiedAsMySQL g v := by
  induction g with
  | errorString addr s =>
    simp only [asMySQL]
    exact Iff.intro (fun h => nomatch h) (fun h => nomatch h)
  | mysqlError addr w =>
    simp only [asMySQL, Option.some.injEq]
    exact ⟨fun h => h ▸ ClassifiedAsMySQL.here addr w, fun h => (by cases h; rfl)⟩
  | mysqlNil =>
    simp only [asMySQL]
    exact Iff.intro (fun h => nomatch h) (fun h => nomatch h)
  | wrapError addr msg err ih =>
    simp only [asMySQL, ih]
    exact ⟨fun h => ClassifiedAsMySQL.wrapped addr msg err v h, fun h => (by cases h; assumption)⟩
  | sliceError items =>
    simp only [asMySQL]
    exact Iff.intro (fun h => nomatch h) (fun h => nomatch h)

theorem asMySQL_otherShape (g : GoError) (h : OtherShape g) : asMySQL g = none := by
  induction h with
  | errorString addr s => rfl
  | sliceError items => rfl
  | wrapped addr msg err _ ih => simpa only [asMySQL] using ih

theorem isDuplicateEntryError_classified (g : GoError) (v : MySQLError) (s : String)
    (h : ClassifiedAsMySQL g v) :
    IsDuplicateEntryError (some g) s =
      if v.Number = 1062 then some (stringsContains v.Message s) else some false := by
  have hv : asMySQL g = some (some v) := (asMySQL_iff g v).mpr h
  simp [IsDuplicateEntryError, errorsAs, hv]

/-- C7: `DuplicateEntryErrorMatcher(s).MatchWith(err)` is `IsDuplicateEntryError(err, s)`,
and it is true if and only if `err` can be classified as a MySQL error whose `Number` is
1062 and whose `Message` contains `s`; it is false for code 1062 with a message that does
not contain `s`, for any other code, for a nil error and for an error of another shape. -/
theorem duplicateEntry_matches_iff (s : String) (err : error) :
    (DuplicateEntryErrorMatcher s).MatchWith err = IsDuplicateEntryError err s ∧
      (IsDuplicateEntryError err s = some true ↔
        ∃ g v, err = some g ∧ ClassifiedAsMySQL g v ∧ v.Number = 1062 ∧
          IsSubstringOf s v.Message) ∧
      (∀ g v, err = some g → ClassifiedAsMySQL g v → v.Number = 1062 →
        ¬ IsSubstringOf s v.Message → IsDuplicateEntryError err s = some false) ∧
      (∀ g v, err = some g → ClassifiedAsMySQL g v → v.Number ≠ 1062 →
        IsDuplicateEntryError err s = some false) ∧
      (err = none → IsDuplicateEntryError err s = some false) ∧
      (∀ g, err = some g → OtherShape g → IsDuplicateEntryError err s = some false) := by
  refine ⟨rfl, ?_, ?_, ?_, ?_, ?_⟩
  · constructor
    · intro h
      cases err with
      | none => simp [IsDuplicateEntryError, errorsAs] at h
      | some g =>
        cases hv : asMySQL g with
        | none => simp [IsDuplicateEntryError, errorsAs, hv] at h
        | some p =>
          cases p with
          | none => simp [IsDuplicateEntryError, errorsAs, hv] at h
          | some v =>
            have hc : ClassifiedAsMySQL g v := (asMySQL_iff g v).mp hv
            rw [isDuplicateEntryError_classified g v s hc] at h
            by_cases hn : v.Number = 1062
            · simp only [hn, if_true, Option.some.injEq] at h
              exact ⟨g, v, rfl, hc, hn, (stringsContains_iff _ _).mp h⟩
            · simp [hn] at h
    · rintro ⟨g, v, rfl, hc, hn, hsub⟩
      rw [isDuplicateEntryError_classified g v s hc]
      simp [hn, (stringsContains_iff _ _).mpr hsub]
  · rintro g v rfl hc hn hsub
    rw [isDuplicateEntryError_classified g v s hc]
    have : stringsContains v.Message s = false := by
      cases hb : stringsContains v.Message s with
      | false => rfl
      | true => exact absurd ((stringsContains_iff _ _).mp hb) hsub
    simp [hn, this]
  · rintro g v rfl hc hn
    rw [isDuplicateEntryError_classified g v s hc]
    simp [hn]
  · rintro rfl
    rfl
  · rintro g rfl hg
    simp [IsDuplicateEntryError, errorsAs, asMySQL_otherShape g hg]

/-- The first row of `TestResult_LastErrMatchWith`, wrapped once: the error is classified
as a MySQL error with code 1062 whose message contains `hello`. -/
theorem duplicateEntry_matches_iff_witness :
    ∃ g v, some (GoError.wrapError 7 "insert"
        (.mysqlError 1 ⟨1062, "Duplicate entry 111 for key hello"⟩)) = some g ∧
      ClassifiedAsMySQL g v ∧ v.Number = 1062 ∧ IsSubstringOf "hello" v.Message :=
  (duplicateEntry_matches_iff "hello" (some (GoError.wrapError 7 "insert"
    (.mysqlError 1 ⟨1062, "Duplicate entry 111 for key hello"⟩)))).2.1.mp (by decide)

/-! ## Retries followed by a terminal outcome -/

/-- C8: for an entry with more than `k` attempts (`k < Times`, so `Times ≥ 2` when
`1 ≤ k`) and a task whose first `k` calls return errors matched by a retry matcher and by
no acceptable matcher and whose call number `k + 1` returns nil, `Run` returns
`Success = true` with `LastErr = nil` after exactly `k + 1` calls. -/
theorem run_retry_then_clean (m : Entry) (k : Nat) (hk : 1 ≤ k) (hT : (k : Int) < m.Times)
    (h : ∀ i, i < k → m.Retries (m.Task.Exec i)) (hnil : m.Task.Exec k = none) :
    2 ≤ m.Times ∧ m.Run = some ⟨⟨true, none⟩, k + 1⟩ := by
  refine ⟨by omega, ?_⟩
  rw [Entry.run_split m k hT,
    Entry.loop_retries m k _ 0 none (fun j hj => by simpa using h j hj), Nat.zero_add]
  exact Entry.loop_nil m _ k _ hnil

/-- Case 3 of `TestEntry_Run`: `error2`, then nil. -/
theorem run_retry_then_clean_witness :
    (testEntry [error2, none]).Run = some ⟨⟨true, none⟩, 2⟩ :=
  (run_retry_then_clean (testEntry [error2, none]) 1 (by decide) (by decide) (by decide) rfl).2

/-- C9: an entry with `Times ≤ 0` never calls the task and returns `Success = false`
with `LastErr = nil`. -/
theorem run_nonpositive_times (m : Entry) (hT : m.Times ≤ 0) :
    m.Run = some ⟨⟨false, none⟩, 0⟩ := by
  have h0 : m.Times.toNat = 0 := by omega
  unfold Entry.Run
  rw [h0]
  rfl

/-- An entry built with `Times = -2` over a task that would fail. -/
theorem run_nonpositive_times_witness :
    (NewEntry (mockTask [error3]) (-2)).Run = some ⟨⟨false, none⟩, 0⟩ :=
  run_nonpositive_times (NewEntry (mockTask [error3]) (-2)) (by decide)

/-- C10: for an entry with more than `k` attempts (`k < Times`, so `Times ≥ 2` when
`1 ≤ k`) and a task whose first `k` calls return errors matched by a retry matcher and by
no acceptable matcher and whose call number `k + 1` returns an error `E` matched by an
acceptable matcher, `Run` returns `Success = true` with `LastErr = E` after exactly
`k + 1` calls. -/
theorem run_retry_then_accepted (m : Entry) (k : Nat) (g : GoError) (hk : 1 ≤ k)
    (hT : (k : Int) < m.Times) (h : ∀ i, i < k → m.Retries (m.Task.Exec i))
    (hE : m.Task.Exec k = some g) (hret : AllReturn m.AcceptableErrors (some g))
    (hacc : MatchedBy m.AcceptableErrors (some g)) :
    2 ≤ m.Times ∧ m.Run = some ⟨⟨true, some g⟩, k + 1⟩ := by
  refine ⟨by omega, ?_⟩
  rw [Entry.run_split m k hT,
    Entry.loop_retries m k _ 0 none (fun j hj => by simpa using h j hj), Nat.zero_add]
  exact Entry.loop_accept m _ k _ g hE hret hacc

/-- Case 4 of `TestEntry_Run`: `error2`, then `error1`. -/
theorem run_retry_then_accepted_witness :
    (testEntry [error2, error1]).Run = some ⟨⟨true, error1⟩, 2⟩ :=
  (run_retry_then_accepted (testEntry [error2, error1]) 1 (.errorString 1 "error1")
    (by decide) (by decide) (by decide) rfl (by decide) (by decide)).2

/-! ## The scan and the classes of an outcome -/

theorem scanMatchers_eq_decide {ms : List IErrorMatcher} {err : error}
    (hret : AllReturn ms err) : scanMatchers ms err = some (decide (MatchedBy ms err)) := by
  by_cases h : MatchedBy ms err
  · simp only [h, decide_True, scanMatchers_some_matched hret h]
  · simp only [h, decide_False, scanMatchers_none_matched hret h]

theorem Entry.classify_nil (m : Entry) : m.classify none = .CLEAN := rfl

theorem Entry.classify_accepted (m : Entry) (g : GoError)
    (h : MatchedBy m.AcceptableErrors (some g)) : m.classify (some g) = .ACCEPTED := by
  simp only [Entry.classify, h, if_true]

theorem Entry.classify_retry (m : Entry) (g : GoError)
    (ha : ¬ MatchedBy m.AcceptableErrors (some g)) (hr : MatchedBy m.NeedRetryErrors (some g)) :
    m.classify (some g) = .RETRY := by
  simp only [Entry.classify, ha, hr, if_true, if_false]

theorem Entry.classify_fatal (m : Entry) (g : GoError)
    (ha : ¬ MatchedBy m.AcceptableErrors (some g))
    (hr : ¬ MatchedBy m.NeedRetryErrors (some g)) : m.classify (some g) = .FATAL := by
  simp only [Entry.classify, ha, hr, if_false]

/-- One iteration of the loop, read through the class of the outcome. -/
theorem Entry.loop_classify (m : Entry) (k i : Nat) (err : error)
    (h : m.Task.Exec i ≠ none →
      AllReturn m.AcceptableErrors (m.Task.Exec i) ∧ AllReturn m.NeedRetryErrors (m.Task.Exec i)) :
    m.loop (k + 1) i err =
      if m.classify (m.Task.Exec i) = .RETRY then m.loop k (i + 1) (m.Task.Exec i)
      else some (m.terminalAt i) := by
  cases ho : m.Task.Exec i with
  | none =>
    have hl := Entry.loop_nil m k i err ho
    simp [hl, Entry.terminalAt, ho, Entry.classify_nil]
  | some g =>
    rw [ho] at h
    obtain ⟨hra, hrr⟩ := h (by simp)
    by_cases ha : MatchedBy m.AcceptableErrors (some g)
    · rw [Entry.loop_accept m k i err g ho hra ha]
      simp [Entry.terminalAt, ho, Entry.classify_accepted m g ha]
    · by_cases hr : MatchedBy m.NeedRetryErrors (some g)
      · have hs : m.Retries (m.Task.Exec i) := by
          rw [ho]
          exact ⟨by simp, hra, hrr, hr, ha⟩
        rw [Entry.loop_retry m k i err hs, ho]
        simp [Entry.classify_retry m g ha hr]
      · rw [Entry.loop_fatal m k i err g ho hra ha hrr hr]
        simp [Entry.terminalAt, ho, Entry.classify_fatal m g ha hr]

/-- What the class of an outcome says about the outcome. -/
theorem Entry.classify_sound (m : Entry) (o : error) :
    (m.classify o = .CLEAN → o = none) ∧
      (m.classify o = .ACCEPTED → o ≠ none ∧ MatchedBy m.AcceptableErrors o) ∧
      (m.classify o = .RETRY →
        o ≠ none ∧ ¬ MatchedBy m.AcceptableErrors o ∧ MatchedBy m.NeedRetryErrors o) ∧
      (m.classify o = .FATAL →
        o ≠ none ∧ ¬ MatchedBy m.AcceptableErrors o ∧ ¬ MatchedBy m.NeedRetryErrors o) := by
  cases o with
  | none => simp [Entry.classify]
  | some g =>
    by_cases ha : MatchedBy m.AcceptableErrors (some g)
    · simp [Entry.classify, ha]
    · by_cases hr : MatchedBy m.NeedRetryErrors (some g)
      · simp [Entry.classify, ha, hr]
      · simp [Entry.classify, ha, hr]

/-- The loop against the search for the first outcome that is not RETRY. -/
theorem Entry.loop_eq_search (m : Entry) (k : Nat) :
    ∀ (i : Nat) (err : error),
      (∀ j, i ≤ j → j < i + k → m.Task.Exec j ≠ none →
        AllReturn m.AcceptableErrors (m.Task.Exec j) ∧
          AllReturn m.NeedRetryErrors (m.Task.Exec j)) →
      m.loop k i err = some
        (match (List.range' i k).find?
            (fun j => decide (m.classify (m.Task.Exec j) ≠ .RETRY)) with
          | some j => m.terminalAt j
          | none => ⟨⟨false, if k = 0 then err else m.Task.Exec (i + k - 1)⟩, i + k⟩) := by
  induction k with
  | zero =>
    intro i err _
    simp [Entry.loop]
  | succ k ih =>
    intro i err h
    rw [Entry.loop_classify m k i err (h i (Nat.le_refl i) (by omega))]
    by_cases hc : m.classify (m.Task.Exec i) = .RETRY
    · rw [if_pos hc, ih (i + 1) (m.Task.Exec i) (fun j h1 h2 => h j (by omega) (by omega))]
      have hp : decide (m.classify (m.Task.Exec i) ≠ .RETRY) = false := by simp [hc]
      simp only [List.range', List.find?_cons, hp]
      have e1 : i + 1 + k = i + (k + 1) := by omega
      rw [e1]
      by_cases hk : k = 0
      · subst hk; simp
      · simp [hk]
    · rw [if_neg hc]
      have hp : decide (m.classify (m.Task.Exec i) ≠ .RETRY) = true := by simp [hc]
      simp only [List.range', List.find?_cons, hp]

/-- What a run of the loop leaves, when the matchers return on the outcomes it meets. -/
theorem Entry.loop_props (m : Entry) (k : Nat) :
    ∀ (i : Nat) (err : error),
      (∀ j, i ≤ j → j < i + k → m.Task.Exec j ≠ none →
        AllReturn m.AcceptableErrors (m.Task.Exec j) ∧
          AllReturn m.NeedRetryErrors (m.Task.Exec j)) →
      ∃ r, m.loop k i err = some r ∧ i ≤ r.calls ∧ r.calls ≤ i + k ∧
        (1 ≤ k → i < r.calls) ∧ (r.calls = i → r.result = ⟨false, err⟩) ∧
        (i < r.calls → r.result.LastErr = m.Task.Exec (r.calls - 1) ∧
          (r.result.Success = true ↔ (m.Task.Exec (r.calls - 1) = none ∨
            MatchedBy m.AcceptableErrors (m.Task.Exec (r.calls - 1))))) := by
  induction k with
  | zero =>
    intro i err _
    exact ⟨⟨⟨false, err⟩, i⟩, rfl, Nat.le_refl i, Nat.le_refl _, fun h => absurd h (by omega),
      fun _ => rfl, fun h => absurd h (Nat.lt_irrefl i)⟩
  | succ k ih =>
    intro i err h
    rw [Entry.loop_classify m k i err (h i (Nat.le_refl i) (by omega))]
    obtain ⟨hclean, hacc, hretry, hfatal⟩ := m.classify_sound (m.Task.Exec i)
    by_cases hc : m.classify (m.Task.Exec i) = .RETRY
    · rw [if_pos hc]
      obtain ⟨r, hr, h1, h2, _, h4, h5⟩ :=
        ih (i + 1) (m.Task.Exec i) (fun j h1 h2 => h j (by omega) (by omega))
      obtain ⟨hne, hna, _⟩ := hretry hc
      refine ⟨r, hr, by omega, by omega, fun _ => by omega, fun h => absurd h (by omega), ?_⟩
      intro _
      by_cases he : r.calls = i + 1
      · have hres := h4 he
        have hlast : r.calls - 1 = i := by omega
        rw [hlast, hres]
        refine ⟨rfl, ?_⟩
        constructor
        · intro hf; cases hf
        · rintro (h0 | h0)
          · exact absurd h0 hne
          · exact absurd h0 hna
      · exact h5 (by omega)
    · rw [if_neg hc]
      refine ⟨m.terminalAt i, rfl, ?_⟩
      have hcalls : (m.terminalAt i).calls = i + 1 := by
        unfold Entry.terminalAt
        cases m.classify (m.Task.Exec i) <;> rfl
      rw [hcalls]
      refine ⟨by omega, by omega, fun _ => by omega, fun h => absurd h (by omega), fun _ => ?_⟩
      simp only [Nat.add_sub_cancel]
      cases hk : m.classify (m.Task.Exec i) with
      | CLEAN =>
        have h0 := hclean hk
        simp only [Entry.terminalAt, hk]
        simp [h0]
      | ACCEPTED =>
        obtain ⟨_, hm⟩ := hacc hk
        simp only [Entry.terminalAt, hk]
        simp [hm]
      | RETRY => exact absurd hk hc
      | FATAL =>
        obtain ⟨hne, hna, _⟩ := hfatal hk
        simp only [Entry.terminalAt, hk]
        simp [hne, hna]

/-- The hypothesis `MatchersReturn` in the shape the loop lemmas take. -/
theorem Entry.matchersReturn_from_zero (m : Entry) (h : m.MatchersReturn) :
    ∀ j, 0 ≤ j → j < 0 + m.Times.toNat → m.Task.Exec j ≠ none →
      AllReturn m.AcceptableErrors (m.Task.Exec j) ∧
        AllReturn m.NeedRetryErrors (m.Task.Exec j) :=
  fun j _ hj hne => h j (by omega) hne

/-! ## Retries followed by a fatal error -/

/-- C11: for an entry with more than `k` attempts (`k < Times`, so `Times ≥ 2` when
`1 ≤ k`) and a task whose first `k` calls return errors matched by a retry matcher and by
no acceptable matcher and whose call number `k + 1` returns an error `E` matched by
neither list, `Run` stops there: `Success = false` with `LastErr = E`, not the earlier
retried error, after exactly `k + 1` calls. -/
theorem run_retry_then_fatal (m : Entry) (k : Nat) (g : GoError) (hk : 1 ≤ k)
    (hT : (k : Int) < m.Times) (h : ∀ i, i < k → m.Retries (m.Task.Exec i))
    (hE : m.Task.Exec k = some g)
    (hra : AllReturn m.AcceptableErrors (some g)) (hna : ¬ MatchedBy m.AcceptableErrors (some g))
    (hrr : AllReturn m.NeedRetryErrors (some g)) (hnr : ¬ MatchedBy m.NeedRetryErrors (some g)) :
    2 ≤ m.Times ∧ m.Run = some ⟨⟨false, some g⟩, k + 1⟩ := by
  refine ⟨by omega, ?_⟩
  rw [Entry.run_split m k hT,
    Entry.loop_retries m k _ 0 none (fun j hj => by simpa using h j hj), Nat.zero_add]
  exact Entry.loop_fatal m _ k _ g hE hra hna hrr hnr

/-- Case 7 of `TestEntry_Run`: `error2`, then `error3`. -/
theorem run_retry_then_fatal_witness :
    (testEntry [error2, error3]).Run = some ⟨⟨false, error3⟩, 2⟩ :=
  (run_retry_then_fatal (testEntry [error2, error3]) 1 (.errorString 3 "error3")
    (by decide) (by decide) (by decide) rfl (by decide) (by decide) (by decide)
    (by decide)).2

/-! ## The identity matcher -/

theorem errEq_true_iff (e t : error) : errEq e t = some true ↔ SameError e t := by
  constructor
  · intro h
    cases e with
    | none =>
      cases t with
      | none => exact SameError.bothNil
      | some _ => simp [errEq] at h
    | some g =>
      cases t with
      | none => simp [errEq] at h
      | some g2 =>
        cases g <;> cases g2 <;> simp [errEq, dynEq] at h <;>
          first
            | (subst h; constructor)
            | constructor
  · intro h
    cases h <;> simp [errEq, dynEq]

/-- C12: `ErrorIs(t).MatchWith(e)` is true if and only if `e == t` under Go error
identity; it is false for a different error value that carries the same message text, and
for an error that merely wraps `t` (the wrapper being an object of its own). -/
theorem errorIs_matches_iff (t e : error) :
    ((ErrorIs t).MatchWith e = some true ↔ SameError e t) ∧
      (∀ (a b : Nat) (s : String), a ≠ b →
        (ErrorIs (some (.errorString a s))).MatchWith (some (.errorString b s)) = some false) ∧
      (∀ (a : Nat) (msg : String) (g : GoError), g.addr ≠ some a →
        (ErrorIs (some g)).MatchWith (some (.wrapError a msg g)) = some false) := by
  refine ⟨errEq_true_iff e t, ?_, ?_⟩
  · intro a b s hab
    have hba : ¬ b = a := fun h => hab h.symm
    simp [ErrorIs, NewErrorMatcherFunc, errEq, dynEq, hba]
  · intro a msg g hg
    cases g <;> simp [ErrorIs, NewErrorMatcherFunc, errEq, dynEq]
    rename_i b _ _
    intro hab
    exact hg (by simp [GoError.addr, hab])

/-- The matcher `ErrorIs(error1)` of the test matches `error1`, which is the same
instance, and not `error2`. -/
theorem errorIs_matches_iff_witness :
    SameError error1 error1 ∧ ¬ SameError error2 error1 :=
  ⟨(errorIs_matches_iff error1 error1).1.mp (by decide),
    fun h => absurd ((errorIs_matches_iff error1 error2).1.mpr h) (by decide)⟩

/-! ## The configuration methods -/

/-- C13: `e.WithAcceptableErrors(ms)` leaves the entry with `AcceptableErrors` equal to
exactly `ms`, whatever was configured before, and with `NeedRetryErrors`, `Task` and
`Times` unchanged; calling it twice is the same as making only the second call. -/
theorem withAcceptableErrors_overwrites (m : Entry) (ms ms0 : List IErrorMatcher) :
    (m.WithAcceptableErrors ms).AcceptableErrors = ms ∧
      (m.WithAcceptableErrors ms).NeedRetryErrors = m.NeedRetryErrors ∧
      (m.WithAcceptableErrors ms).Task = m.Task ∧
      (m.WithAcceptableErrors ms).Times = m.Times ∧
      (m.WithAcceptableErrors ms0).WithAcceptableErrors ms = m.WithAcceptableErrors ms :=
  ⟨rfl, rfl, rfl, rfl, rfl⟩

/-- C14: `e.WithRetryErrors(ms)` leaves the entry with `NeedRetryErrors` equal to exactly
`ms`, whatever was configured before, and with `AcceptableErrors`, `Task` and `Times`
unchanged; calling it twice is the same as making only the second call. -/
theorem withRetryErrors_overwrites (m : Entry) (ms ms0 : List IErrorMatcher) :
    (m.WithRetryErrors ms).NeedRetryErrors = ms ∧
      (m.WithRetryErrors ms).AcceptableErrors = m.AcceptableErrors ∧
      (m.WithRetryErrors ms).Task = m.Task ∧
      (m.WithRetryErrors ms).Times = m.Times ∧
      (m.WithRetryErrors ms0).WithRetryErrors ms = m.WithRetryErrors ms :=
  ⟨rfl, rfl, rfl, rfl, rfl⟩

/-! ## Panics of the built-in matchers -/

/-- C15, refuted as stated: `ErrorIs` panics on two values of one non-comparable dynamic
type, and the duplicate-entry matcher panics on a nil `*mysql.MySQLError` held in the
interface. -/
theorem builtin_matchers_panic :
    (ErrorIs (some (.sliceError ["a"]))).MatchWith (some (.sliceError ["a"])) = none ∧
      (DuplicateEntryErrorMatcher "hello").MatchWith (some .mysqlNil) = none :=
  ⟨rfl, rfl⟩

/-- C15, amended: `ErrorIs(t).MatchWith(e)` returns a boolean when `e` or `t` is nil, when
`e` or `t` holds a pointer, and when `e` and `t` hold values of different dynamic types;
`DuplicateEntryErrorMatcher(s).MatchWith(e)` returns a boolean when `e` is nil, when `e`
is classified as a MySQL error held by a non-nil pointer, and when `e` is of another
shape.  An `e` of non-comparable type is among these inputs of both matchers. -/
theorem builtin_matchers_return (e : error) :
    (∀ t : error,
      (e = none ∨ t = none ∨ (∃ g, e = some g ∧ g.dynType.isPointer = true) ∨
        (∃ h, t = some h ∧ h.dynType.isPointer = true) ∨
        (∃ g h, e = some g ∧ t = some h ∧ g.dynType ≠ h.dynType)) →
      ∃ b, (ErrorIs t).MatchWith e = some b) ∧
      (∀ s : String,
        (e = none ∨ ∃ g, e = some g ∧ (OtherShape g ∨ ∃ v, ClassifiedAsMySQL g v)) →
        ∃ b, (DuplicateEntryErrorMatcher s).MatchWith e = some b) := by
  constructor
  · intro t h
    cases e with
    | none => cases t <;> simp [ErrorIs, NewErrorMatcherFunc, errEq]
    | some g =>
      cases t with
      | none => simp [ErrorIs, NewErrorMatcherFunc, errEq]
      | some g2 =>
        cases g <;> cases g2 <;> simp [ErrorIs, NewErrorMatcherFunc, errEq, dynEq]
        simp [GoError.dynType, DynType.isPointer] at h
  · intro s h
    rcases h with rfl | ⟨g, rfl, hg⟩
    · exact ⟨false, rfl⟩
    · rcases hg with hother | ⟨v, hv⟩
      · exact ⟨false, by
          simp [DuplicateEntryErrorMatcher, NewErrorMatcherFunc, IsDuplicateEntryError,
            errorsAs, asMySQL_otherShape g hother]⟩
      · have hd := isDuplicateEntryError_classified g v s hv
        by_cases hn : v.Number = 1062
        · exact ⟨stringsContains v.Message s, by
            simp [DuplicateEntryErrorMatcher, NewErrorMatcherFunc, hd, hn]⟩
        · exact ⟨false, by
            simp [DuplicateEntryErrorMatcher, NewErrorMatcherFunc, hd, hn]⟩

/-- On an error of non-comparable type, `ErrorIs(error1)`, whose target is a pointer, and
the duplicate-entry matcher both return a boolean. -/
theorem builtin_matchers_return_witness :
    (∃ b, (ErrorIs error1).MatchWith (some (.sliceError ["a"])) = some b) ∧
      ∃ b, (DuplicateEntryErrorMatcher "hello").MatchWith (some (.sliceError ["a"])) = some b :=
  ⟨(builtin_matchers_return (some (.sliceError ["a"]))).1 error1
      (Or.inr (Or.inr (Or.inr (Or.inl ⟨_, rfl, rfl⟩)))),
    (builtin_matchers_return (some (.sliceError ["a"]))).2 "hello"
      (Or.inr ⟨_, rfl, Or.inl (OtherShape.sliceError ["a"])⟩)⟩

/-! ## `Run` against its reference definition -/

/-- C16: `Run` equals the reference definition: with `j` the least index in `1..Times`
whose outcome is not RETRY, the task is called exactly `j` times and the result is
`(true, nil)` for CLEAN, `(true, o_j)` for ACCEPTED, `(false, o_j)` for FATAL; with no
such `j`, it is called `max(Times, 0)` times and the result is `(false, last outcome)`,
nil when `Times <= 0`. -/
theorem run_eq_reference (m : Entry) (h : m.MatchersReturn) :
    m.Run = some m.RunReference := by
  unfold Entry.Run
  rw [Entry.loop_eq_search m _ 0 none (Entry.matchersReturn_from_zero m h)]
  unfold Entry.RunReference Entry.leastNonRetry
  rw [List.range_eq_range']
  congr 1
  cases List.find? (fun j => decide (m.classify (m.Task.Exec j) ≠ .RETRY))
      (List.range' 0 m.Times.toNat) with
  | some j => rfl
  | none =>
    simp only [Nat.zero_add]
    by_cases hT : m.Times ≤ 0
    · have h0 : m.Times.toNat = 0 := by omega
      simp [hT, h0]
    · have h0 : m.Times.toNat ≠ 0 := by omega
      simp [hT, h0]

/-- Case 7 of `TestEntry_Run` against the reference: two calls, `(false, error3)`. -/
theorem run_eq_reference_witness :
    (testEntry [error2, error3]).RunReference = ⟨⟨false, error3⟩, 2⟩ ∧
      (testEntry [error2, error3]).Run = some (testEntry [error2, error3]).RunReference :=
  ⟨by decide, run_eq_reference (testEntry [error2, error3]) (by decide)⟩

/-- C17: `Run` returns, having called the task at most `max(Times, 0)` times, and at least
once when `Times ≥ 1`. -/
theorem run_calls_bounds (m : Entry) (h : m.MatchersReturn) :
    ∃ r, m.Run = some r ∧ (r.calls : Int) ≤ max m.Times 0 ∧ (1 ≤ m.Times → 1 ≤ r.calls) := by
  obtain ⟨r, hr, _, h2, h3, _⟩ :=
    Entry.loop_props m m.Times.toNat 0 none (Entry.matchersReturn_from_zero m h)
  refine ⟨r, hr, ?_, fun hT => ?_⟩
  · have : (r.calls : Int) ≤ (m.Times.toNat : Int) := by omega
    have hmax : (m.Times.toNat : Int) = max m.Times 0 := Int.toNat_eq_max m.Times
    omega
  · have := h3 (by omega)
    omega

/-- Case 5 of `TestEntry_Run`: three calls for `Times = 3`. -/
theorem run_calls_bounds_witness :
    ∃ r, (testEntry [error2, error2, error2]).Run = some r ∧ (r.calls : Int) ≤ max 3 0 ∧
      ((1 : Int) ≤ 3 → 1 ≤ r.calls) :=
  run_calls_bounds (testEntry [error2, error2, error2]) (by decide)

/-- C18: for `Times ≥ 1`, `Run` returns `Success = true` if and only if the last call it
made returned nil or an error matched by at least one acceptable matcher; so a `Result`
with `Success = true` and a non-nil `LastErr` carries an error that an acceptable matcher
matches. -/
theorem run_success_iff (m : Entry) (hT : 1 ≤ m.Times) (h : m.MatchersReturn) :
    ∃ r, m.Run = some r ∧ 1 ≤ r.calls ∧
      (r.result.Success = true ↔ (m.Task.Exec (r.calls - 1) = none ∨
        MatchedBy m.AcceptableErrors (m.Task.Exec (r.calls - 1)))) ∧
      (r.result.Success = true → r.result.LastErr ≠ none →
        MatchedBy m.AcceptableErrors r.result.LastErr) := by
  obtain ⟨r, hr, _, _, h3, _, h5⟩ :=
    Entry.loop_props m m.Times.toNat 0 none (Entry.matchersReturn_from_zero m h)
  have hpos : 0 < r.calls := h3 (by omega)
  obtain ⟨hlast, hiff⟩ := h5 hpos
  refine ⟨r, hr, hpos, hiff, fun hs hne => ?_⟩
  rw [hlast] at hne ⊢
  rcases hiff.mp hs with h0 | h0
  · exact absurd h0 hne
  · exact h0

/-- Case 4 of `TestEntry_Run`: the last call returned `error1`, which is acceptable. -/
theorem run_success_iff_witness :
    ∃ r, (testEntry [error2, error1]).Run = some r ∧ 1 ≤ r.calls ∧
      (r.result.Success = true ↔ ((testEntry [error2, error1]).Task.Exec (r.calls - 1) = none ∨
        MatchedBy (testEntry [error2, error1]).AcceptableErrors
          ((testEntry [error2, error1]).Task.Exec (r.calls - 1)))) ∧
      (r.result.Success = true → r.result.LastErr ≠ none →
        MatchedBy (testEntry [error2, error1]).AcceptableErrors r.result.LastErr) :=
  run_success_iff (testEntry [error2, error1]) (by decide) (by decide)

/-- C19: for `Times ≥ 1`, the `LastErr` of the `Result` that `Run` returns is the value,
nil or error, returned by the last call made during that run. -/
theorem run_lastErr_is_last_outcome (m : Entry) (hT : 1 ≤ m.Times) (h : m.MatchersReturn) :
    ∃ r, m.Run = some r ∧ 1 ≤ r.calls ∧ r.calls ≤ m.Times.toNat ∧
      r.result.LastErr = m.Task.Exec (r.calls - 1) := by
  obtain ⟨r, hr, _, h2, h3, _, h5⟩ :=
    Entry.loop_props m m.Times.toNat 0 none (Entry.matchersReturn_from_zero m h)
  have hpos : 0 < r.calls := h3 (by omega)
  exact ⟨r, hr, hpos, by omega, (h5 hpos).1⟩

/-- Case 3 of `TestEntry_Run`: `LastErr` is the nil of the second call, not `error2`. -/
theorem run_lastErr_is_last_outcome_witness :
    ∃ r, (testEntry [error2, none]).Run = some r ∧ 1 ≤ r.calls ∧ r.calls ≤ 3 ∧
      r.result.LastErr = (testEntry [error2, none]).Task.Exec (r.calls - 1) :=
  run_lastErr_is_last_outcome (testEntry [error2, none]) (by decide) (by decide)

/-- C20: an entry with an empty retry list and `Times ≥ 1` calls the task exactly once,
whatever `Times` is, and returns `Success = true` if and only if that call returned nil or
an error matched by an acceptable matcher. -/
theorem run_without_retry_matchers (m : Entry) (hR : m.NeedRetryErrors = [])
    (hT : 1 ≤ m.Times)
    (hret : m.Task.Exec 0 ≠ none → AllReturn m.AcceptableErrors (m.Task.Exec 0)) :
    ∃ r, m.Run = some r ∧ r.calls = 1 ∧ r.result.LastErr = m.Task.Exec 0 ∧
      (r.result.Success = true ↔
        (m.Task.Exec 0 = none ∨ MatchedBy m.AcceptableErrors (m.Task.Exec 0))) := by
  have hall : ∀ j, 0 ≤ j → j < 0 + 1 → m.Task.Exec j ≠ none →
      AllReturn m.AcceptableErrors (m.Task.Exec j) ∧
        AllReturn m.NeedRetryErrors (m.Task.Exec j) := by
    intro j _ hj hne
    have hj0 : j = 0 := by omega
    subst hj0
    refine ⟨hret hne, ?_⟩
    rw [hR]
    intro x hx
    cases hx
  have hnr : m.classify (m.Task.Exec 0) ≠ .RETRY := by
    intro hc
    obtain ⟨x, hx, _⟩ := ((m.classify_sound (m.Task.Exec 0)).2.2.1 hc).2.2
    rw [hR] at hx
    cases hx
  have hone : m.Run = m.loop 1 0 none := by
    rw [Entry.run_pos m hT, Entry.loop_classify m _ 0 none (hall 0 (Nat.le_refl 0) (by omega)),
      Entry.loop_classify m 0 0 none (hall 0 (Nat.le_refl 0) (by omega)), if_neg hnr, if_neg hnr]
  obtain ⟨r, hr, _, h2, h3, _, h5⟩ := Entry.loop_props m 1 0 none hall
  have hpos : 0 < r.calls := h3 (Nat.le_refl 1)
  have hc1 : r.calls = 1 := by omega
  obtain ⟨hlast, hiff⟩ := h5 hpos
  rw [hc1] at hlast hiff
  exact ⟨r, hone.trans hr, hc1, hlast, hiff⟩

/-- With no retry matcher, `error2` ends the run at the first of three allowed calls. -/
theorem run_without_retry_matchers_witness :
    ∃ r, (noRetryEntry [error2, none]).Run = some r ∧ r.calls = 1 ∧
      r.result.LastErr = (noRetryEntry [error2, none]).Task.Exec 0 ∧
      (r.result.Success = true ↔ ((noRetryEntry [error2, none]).Task.Exec 0 = none ∨
        MatchedBy (noRetryEntry [error2, none]).AcceptableErrors
          ((noRetryEntry [error2, none]).Task.Exec 0))) :=
  run_without_retry_matchers (noRetryEntry [error2, none]) rfl (by decide) (fun _ => by decide)

end Retry
